import Mathlib

/-
Verification development for the google_drive_file_collector repository.

The development shallowly embeds the three relevant sources:
  - drive_flie_list.py   (namespace DriveList)
  - google_drive_reader.py (namespace Reader)
  - collect_all.py       (namespace CollectAll)

External collaborators (the remote Drive service, the datetime library and
the Mongo driver) are modelled as explicit environment records of pure
functions; every remote call made by the embedded code is additionally
recorded in an event trace so that claims about which calls happen, and in
which order, can be stated and decided.
-/

deriving instance DecidableEq for Except

namespace DriveList

/-- Dates are opaque values handed around between the datetime collaborator
functions of the environment; only the environment ever inspects them. -/
abbrev Date := Nat

/-- Argument accepted for start_date and end_date: either an already parsed
datetime object or a YYYY-MM-DD string that strptime must parse. -/
inductive DateArg where
  | str (s : String)
  | dt (d : Date)
deriving DecidableEq, Repr

/-- Metadata returned by service.files().get in verify_folder_access. -/
structure FolderMeta where
  id : String
  name : String
  mimeType : String
deriving DecidableEq, Repr

/-- Projection of one file object returned by the search endpoint; the
fields the claims mention are the identifier and the display name. -/
structure FileRec where
  id : String
  name : String
deriving DecidableEq, Repr

/-- One response of the paginated subfolder listing: an exception, or a page
of child folder identifiers together with the presence of a continuation
token. -/
inductive PageResp where
  | err
  | ok (folders : List String) (hasNext : Bool)
deriving DecidableEq, Repr

/-- One response of the paginated search endpoint: an exception, or a page
of file records together with the presence of a continuation token. -/
inductive SearchResp where
  | err
  | ok (files : List FileRec) (hasNext : Bool)
deriving DecidableEq, Repr

/-- Remote calls issued by the embedded code, in issue order. -/
inductive CallEv where
  | getMeta (fileId : String)
  | listChildren (folderId : String) (page : Nat)
  | search (query : String) (page : Nat)
deriving DecidableEq, Repr

/-- Environment: the Drive service plus the datetime collaborators.
listFolders and search give, per folder identifier and per query string, the
finite sequence of page responses the service would return to the chain of
continuation tokens; a well formed environment ends each sequence with an
error or with a page carrying no continuation token. -/
structure GEnv where
  parseDate : String → Option Date
  now : Date
  sub7days : Date → Date
  fmtStart : Date → String
  fmtEnd : Date → String
  getMeta : String → Option FolderMeta
  listFolders : String → List PageResp
  search : String → List SearchResp

/-- Model of verify_folder_access (drive_flie_list.py lines 44 to 86): the
files().get call either raises (modelled by none) or yields the metadata.
A metadata whose mimeType is not the folder type only triggers a printed
warning; the metadata is still returned. -/
def verify_folder_access (env : GEnv) (folder_id : String) : Option FolderMeta :=
  env.getMeta folder_id

/-- Model of the mime_type_map dictionary of build_file_type_query
(drive_flie_list.py lines 143 to 203). -/
def mime_type_map : List (String × String) :=
  [ ("pdf", "mimeType=\x27application/pdf\x27"),
    ("doc", "mimeType=\x27application/msword\x27"),
    ("docx", "mimeType=\x27application/vnd.openxmlformats-officedocument.wordprocessingml.document\x27"),
    ("txt", "mimeType=\x27text/plain\x27"),
    ("rtf", "mimeType=\x27application/rtf\x27"),
    ("xls", "mimeType=\x27application/vnd.ms-excel\x27"),
    ("xlsx", "mimeType=\x27application/vnd.openxmlformats-officedocument.spreadsheetml.sheet\x27"),
    ("csv", "mimeType=\x27text/csv\x27"),
    ("ppt", "mimeType=\x27application/vnd.ms-powerpoint\x27"),
    ("pptx", "mimeType=\x27application/vnd.openxmlformats-officedocument.presentationml.presentation\x27"),
    ("gdoc", "mimeType=\x27application/vnd.google-apps.document\x27"),
    ("gsheet", "mimeType=\x27application/vnd.google-apps.spreadsheet\x27"),
    ("gslide", "mimeType=\x27application/vnd.google-apps.presentation\x27"),
    ("gform", "mimeType=\x27application/vnd.google-apps.form\x27"),
    ("gdrawing", "mimeType=\x27application/vnd.google-apps.drawing\x27"),
    ("image", "mimeType contains \x27image/\x27"),
    ("jpg", "mimeType=\x27image/jpeg\x27"),
    ("jpeg", "mimeType=\x27image/jpeg\x27"),
    ("png", "mimeType=\x27image/png\x27"),
    ("gif", "mimeType=\x27image/gif\x27"),
    ("bmp", "mimeType=\x27image/bmp\x27"),
    ("svg", "mimeType=\x27image/svg+xml\x27"),
    ("webp", "mimeType=\x27image/webp\x27"),
    ("video", "mimeType contains \x27video/\x27"),
    ("mp4", "mimeType=\x27video/mp4\x27"),
    ("avi", "mimeType=\x27video/x-msvideo\x27"),
    ("mov", "mimeType=\x27video/quicktime\x27"),
    ("wmv", "mimeType=\x27video/x-ms-wmv\x27"),
    ("audio", "mimeType contains \x27audio/\x27"),
    ("mp3", "mimeType=\x27audio/mpeg\x27"),
    ("wav", "mimeType=\x27audio/wav\x27"),
    ("zip", "mimeType=\x27application/zip\x27"),
    ("rar", "mimeType=\x27application/x-rar-compressed\x27"),
    ("7z", "mimeType=\x27application/x-7z-compressed\x27"),
    ("tar", "mimeType=\x27application/x-tar\x27"),
    ("gz", "mimeType=\x27application/gzip\x27"),
    ("json", "mimeType=\x27application/json\x27"),
    ("xml", "mimeType=\x27application/xml\x27"),
    ("html", "mimeType=\x27text/html\x27"),
    ("css", "mimeType=\x27text/css\x27"),
    ("js", "mimeType=\x27application/javascript\x27"),
    ("py", "mimeType=\x27text/x-python\x27") ]

/-- Model of the Python str.lower method applied to a string, giving the
character list the substring checks run over. -/
def lower (s : String) : List Char :=
  s.data.map Char.toLower

/-- Model of build_file_type_query (drive_flie_list.py lines 132 to 214):
each type tag is lowercased and resolved through mime_type_map, unknown
tags fall back to a name-contains filter, and the disjunction is joined
with or; an empty tag list yields None. -/
def build_file_type_query (file_types : List String) : Option String :=
  let queries := file_types.map fun ft =>
    let l := String.mk (ft.data.map Char.toLower)
    match mime_type_map.lookup l with
    | some q => q
    | none => "name contains \x27." ++ l ++ "\x27"
  if queries.isEmpty then none else some (String.intercalate " or " queries)

/-- Model of the inner loop of filter_by_exclude_keywords (drive_flie_list.py
lines 231 to 238): a record is excluded when some keyword, lowercased, is a
substring of the lowercased name. -/
def should_exclude (f : FileRec) (exclude_keywords : List String) : Bool :=
  exclude_keywords.any fun kw => decide (lower kw <:+: lower f.name)

/-- Model of filter_by_exclude_keywords (drive_flie_list.py lines 216 to
243): with a falsy keyword list the input is returned unchanged, otherwise
the records that should be excluded are dropped and the rest keep their
order. -/
def filter_by_exclude_keywords (files : List FileRec) (exclude_keywords : List String) :
    List FileRec :=
  if exclude_keywords.isEmpty then files
  else files.filter fun f => !(should_exclude f exclude_keywords)

/-- Model of the time_field selection (drive_flie_list.py line 284): the
string modified selects modifiedTime and every other value selects
createdTime. -/
def time_field (search_type : String) : String :=
  if search_type = "modified" then "modifiedTime" else "createdTime"

/-- Python truthiness of an optional list argument: None and the empty list
are falsy. -/
def truthy {α : Type} (o : Option (List α)) : Bool :=
  !(o.getD []).isEmpty

/-- Inner for loop of get_all_subfolders over the folders of one page
(drive_flie_list.py lines 117 to 120): each child identifier is appended
and then recursed into immediately, through the given recursion function. -/
def subfolder_children (recurse : String → List String × List CallEv) :
    List String → List String × List CallEv
  | [] => ([], [])
  | c :: cs =>
    let r := recurse c
    let rest := subfolder_children recurse cs
    (c :: (r.1 ++ rest.1), r.2 ++ rest.2)

/-- Page loop of get_all_subfolders (drive_flie_list.py lines 104 to 128):
process one page, recurse into each child of the page, then follow the
continuation token. An exception ends the loop with what was accumulated. -/
def subfolder_pages (recurse : String → List String × List CallEv) (fid : String) (k : Nat) :
    List PageResp → List String × List CallEv
  | [] => ([], [])
  | PageResp.err :: _ => ([], [CallEv.listChildren fid k])
  | PageResp.ok folders hasNext :: rest =>
    let child := subfolder_children recurse folders
    if hasNext then
      let cont := subfolder_pages recurse fid (k + 1) rest
      (child.1 ++ cont.1, CallEv.listChildren fid k :: (child.2 ++ cont.2))
    else
      (child.1, CallEv.listChildren fid k :: child.2)

/-- Model of get_all_subfolders (drive_flie_list.py lines 88 to 130). The
fuel bounds the recursion depth into child folders; the page loop follows
the finite response sequence of the environment. Returns the accumulated
subfolder identifiers and the trace of listing calls. -/
def get_all_subfolders (env : GEnv) : Nat → String → List String × List CallEv
  | 0, _ => ([], [])
  | fuel + 1, fid =>
    subfolder_pages (fun c => get_all_subfolders env fuel c) fid 0 (env.listFolders fid)

/-- Model of execute_search (drive_flie_list.py lines 399 to 437): pages are
appended while a continuation token is present; an exception ends the loop
and whatever was accumulated so far is returned, no exception escapes. -/
def execute_search : List SearchResp → List FileRec
  | [] => []
  | SearchResp.err :: _ => []
  | SearchResp.ok files hasNext :: rest =>
    if hasNext then files ++ execute_search rest else files

/-- Number of page requests execute_search issues against a response
sequence before it stops. -/
def pages_fetched : List SearchResp → Nat
  | [] => 0
  | SearchResp.err :: _ => 1
  | SearchResp.ok _ hasNext :: rest => if hasNext then pages_fetched rest + 1 else 1

/-- Trace of the search calls execute_search issues for one query. -/
def search_trace (q : String) (resps : List SearchResp) : List CallEv :=
  (List.range (pages_fetched resps)).map (CallEv.search q)

/-- Model of the filename keyword disjunction (drive_flie_list.py lines 335
to 339 and 368 to 372). -/
def keyword_part (kws : List String) : String :=
  "(" ++ String.intercalate " or " (kws.map fun k => "name contains \x27" ++ k ++ "\x27") ++ ")"

/-- Model of the query_parts construction of get_files_in_date_range
(drive_flie_list.py lines 321 to 341 for the folder scoped case and lines
355 to 374 for the whole drive case). -/
def build_query_parts (tf s0 s1 : String) (folder : Option String)
    (file_types filename_keywords : Option (List String)) : List String :=
  let p1 := [tf ++ " >= \x27" ++ s0 ++ "\x27", tf ++ " <= \x27" ++ s1 ++ "\x27",
             "trashed = false"]
  let p2 := match folder with
    | some fid => p1 ++ ["\x27" ++ fid ++ "\x27 in parents"]
    | none => p1
  let p3 := if truthy file_types then
      match build_file_type_query (file_types.getD []) with
      | some tq => p2 ++ ["(" ++ tq ++ ")"]
      | none => p2
    else p2
  if truthy filename_keywords then p3 ++ [keyword_part (filename_keywords.getD [])] else p3

/-- Conjunction of the query parts, joined with and. -/
def build_query (tf s0 s1 : String) (folder : Option String)
    (file_types filename_keywords : Option (List String)) : String :=
  String.intercalate " and " (build_query_parts tf s0 s1 folder file_types filename_keywords)

/-- Per folder search loop of get_files_in_date_range (drive_flie_list.py
lines 320 to 351): build the folder scoped query, run execute_search, and
append the results of the remaining folders. -/
def search_folders (env : GEnv) (tf s0 s1 : String)
    (file_types filename_keywords : Option (List String)) :
    List String → List FileRec × List CallEv
  | [] => ([], [])
  | fid :: rest =>
    let q := build_query tf s0 s1 (some fid) file_types filename_keywords
    let res := execute_search (env.search q)
    let more := search_folders env tf s0 s1 file_types filename_keywords rest
    (res ++ more.1, search_trace q (env.search q) ++ more.2)

/-- Model of the duplicate removal of get_files_in_date_range
(drive_flie_list.py lines 381 to 387): a record survives when its
identifier has not been seen before. -/
def dedup (seen : List String) : List FileRec → List FileRec
  | [] => []
  | f :: rest => if f.id ∈ seen then dedup seen rest else f :: dedup (f.id :: seen) rest

/-- Post processing stage of get_files_in_date_range (drive_flie_list.py
lines 381 to 397): deduplicate, then apply the exclude keyword filter when
the argument is truthy. -/
def postprocess (exclude_keywords : Option (List String)) (all_results : List FileRec) :
    List FileRec :=
  let unique_results := dedup [] all_results
  if truthy exclude_keywords then
    filter_by_exclude_keywords unique_results (exclude_keywords.getD [])
  else unique_results

/-- Model of the date argument handling of get_files_in_date_range
(drive_flie_list.py lines 268 to 271): a string argument goes through
strptime, which raises on an unparseable input. -/
def parseDateArg (env : GEnv) : Option DateArg → Except Unit (Option Date)
  | none => Except.ok none
  | some (DateArg.dt d) => Except.ok (some d)
  | some (DateArg.str s) =>
    match env.parseDate s with
    | none => Except.error ()
    | some d => Except.ok (some d)

/-- Portion of get_files_in_date_range that runs after the root folder
verification succeeded (drive_flie_list.py lines 304 to 397): collect the
folder set, search every folder, and post process. The first component of
the ok pair is the merged all_results list, the second the returned list. -/
def discovery_after_verify (env : GEnv) (fuel : Nat) (fid : String) (recursive : Bool)
    (tf s0 s1 : String) (file_types filename_keywords exclude_keywords : Option (List String)) :
    Except Unit (List FileRec × List FileRec) × List CallEv :=
  let sub := if recursive then get_all_subfolders env fuel fid else ([], [])
  let folders_to_search := fid :: sub.1
  let sr := search_folders env tf s0 s1 file_types filename_keywords folders_to_search
  (Except.ok (sr.1, postprocess exclude_keywords sr.1), sub.2 ++ sr.2)

/-- Model of get_files_in_date_range (drive_flie_list.py lines 245 to 397),
instrumented to also return the merged all_results list next to the final
list, together with the trace of remote calls. An error value models an
exception escaping the call. -/
def discover_run (env : GEnv) (fuel : Nat) (folder_id : Option String)
    (start_date end_date : Option DateArg) (search_type : String) (recursive : Bool)
    (file_types filename_keywords exclude_keywords : Option (List String)) :
    Except Unit (List FileRec × List FileRec) × List CallEv :=
  match parseDateArg env start_date with
  | Except.error e => (Except.error e, [])
  | Except.ok sd =>
    match parseDateArg env end_date with
    | Except.error e => (Except.error e, [])
    | Except.ok ed =>
      let endD := ed.getD env.now
      let startD := sd.getD (env.sub7days endD)
      let s0 := env.fmtStart startD
      let s1 := env.fmtEnd endD
      let tf := time_field search_type
      match folder_id with
      | some fid =>
        match verify_folder_access env fid with
        | none => (Except.ok ([], []), [CallEv.getMeta fid])
        | some _ =>
          let r := discovery_after_verify env fuel fid recursive tf s0 s1
            file_types filename_keywords exclude_keywords
          (r.1, CallEv.getMeta fid :: r.2)
      | none =>
        let q := build_query tf s0 s1 none file_types filename_keywords
        let all := execute_search (env.search q)
        (Except.ok (all, postprocess exclude_keywords all), search_trace q (env.search q))

/-- The list get_files_in_date_range actually returns: the projection of
discover_run onto the final list. -/
def get_files_in_date_range (env : GEnv) (fuel : Nat) (folder_id : Option String)
    (start_date end_date : Option DateArg) (search_type : String) (recursive : Bool)
    (file_types filename_keywords exclude_keywords : Option (List String)) :
    Except Unit (List FileRec) × List CallEv :=
  let r := discover_run env fuel folder_id start_date end_date search_type recursive
    file_types filename_keywords exclude_keywords
  (r.1.map Prod.snd, r.2)

end DriveList

namespace Reader

/-- Metadata returned by get_file_metadata for one file; name and mimeType
are read with dictionary defaults, so they may be absent. -/
structure Meta where
  name : Option String := none
  mimeType : Option String := none
deriving DecidableEq, Repr

/-- Environment of the GoogleDriveReader class. getMeta models the
files().get call of get_file_metadata: an error value is an exception other
than HttpError propagating, ok none is the HttpError branch that returns
None. exportDoc and exportSheet model read_google_doc and read_google_sheet
the same way: ok none is the HttpError branch inside them, an error value is
any other exception escaping. -/
structure REnv where
  getMeta : String → Except Unit (Option Meta)
  exportDoc : String → Except Unit (Option String)
  exportSheet : String → Except Unit (Option String)

/-- Model of GoogleDriveReader.read_file_content (google_drive_reader.py
lines 183 to 216): fetch metadata, return the pair (None, None) when that
yields None, otherwise dispatch on the mime type; unsupported types give a
null content. An error value is an exception escaping the method. -/
def read_file_content (env : REnv) (file_id : String) :
    Except Unit (Option String × Option String) :=
  match env.getMeta file_id with
  | Except.error e => Except.error e
  | Except.ok none => Except.ok (none, none)
  | Except.ok (some m) =>
    let file_name := m.name.getD "Unknown"
    let mime_type := m.mimeType.getD ""
    if mime_type = "application/vnd.google-apps.document" then
      match env.exportDoc file_id with
      | Except.error e => Except.error e
      | Except.ok content => Except.ok (some file_name, content)
    else if mime_type = "application/vnd.google-apps.spreadsheet" then
      match env.exportSheet file_id with
      | Except.error e => Except.error e
      | Except.ok content => Except.ok (some file_name, content)
    else
      Except.ok (some file_name, none)

/-- Result recorded for one item of the read_multiple_files loop: the tuple
read_file_content returned, or (None, None) when it raised. -/
def item_result (env : REnv) (file_id : String) : Option String × Option String :=
  match read_file_content env file_id with
  | Except.error _ => (none, none)
  | Except.ok p => p

/-- Model of GoogleDriveReader.read_multiple_files (google_drive_reader.py
lines 218 to 255): one append per input identifier, in input order; an
exception from read_file_content is caught and recorded as (None, None)
and the loop continues with the remaining identifiers. -/
def read_multiple_files (env : REnv) : List String → List (Option String × Option String)
  | [] => []
  | file_id :: rest => item_result env file_id :: read_multiple_files env rest

end Reader

namespace CollectAll

/-- Record shape handled by collect_all.py: a discovery record carrying the
parent folder identifiers and the two fields filled in later. A value none
in content or created_by means the key is absent from the dictionary; a
value some none means the key is present and holds None. -/
structure CollectRec where
  id : String
  name : String
  parents : List String
  content : Option (Option String) := none
  created_by : Option (Option String) := none
deriving DecidableEq, Repr

/-- Model of add_contents_to_files (collect_all.py lines 59 to 63): walk the
index range of collected_files; at each index, when the stored name equals
the name component of the content tuple, set the content key to the content
component; other indices and all other keys are untouched. The result is
none when the tuple list is shorter than the record list, in which case the
original loop raises an IndexError. -/
def add_contents_to_files (collected_files : List CollectRec)
    (c_files_shared : List (Option String × Option String)) : Option (List CollectRec) :=
  if collected_files.length ≤ c_files_shared.length then
    some ((collected_files.zip c_files_shared).map fun fc =>
      if fc.2.1 = some fc.1.name then { fc.1 with content := some fc.2.2 } else fc.1)
  else none

/-- Dictionary assignment: overwrite the value when the key is present,
append the pair otherwise, as Python dict assignment does. -/
def dictInsert {α : Type} (m : List (String × α)) (k : String) (v : α) :
    List (String × α) :=
  if (m.lookup k).isSome then m.map fun kv => if kv.1 = k then (k, v) else kv
  else m ++ [(k, v)]

/-- Shared lookup loop of get_idmap and map_ids_to_names (collect_all.py
lines 77 to 79 and 96 to 98): for every folder identifier in the list, in
order, call reader.read_files on it and store the first tuple component in
the dictionary. The second component of the ok pair is the list of folder
identifiers the reader was called on, in call order; an exception escaping
the reader aborts the loop. -/
def idmapLoop (env : Reader.REnv) :
    List String → List (String × Option String) →
    Except Unit (List (String × Option String) × List String)
  | [], m => Except.ok (m, [])
  | fid :: rest, m =>
    match Reader.read_file_content env fid with
    | Except.error e => Except.error e
    | Except.ok p =>
      match idmapLoop env rest (dictInsert m fid p.1) with
      | Except.error e => Except.error e
      | Except.ok (m2, calls) => Except.ok (m2, fid :: calls)

/-- First parent collection loop of get_idmap (collect_all.py lines 69 to
72), in record order before the position zero insertions are accounted for;
none models the IndexError raised at the first record without parents. -/
def first_parents : List CollectRec → Option (List String)
  | [] => some []
  | f :: fs =>
    match f.parents.head?, first_parents fs with
    | some h, some t => some (h :: t)
    | _, _ => none

/-- Model of get_idmap (collect_all.py lines 68 to 81): collect the first
parent of every record by inserting at position zero, so the worklist is the
reversed list of first parents; tuple() keeps duplicates; then run the
lookup loop over that worklist. The result is an error when some record has
no parent (IndexError) or the reader raises. -/
def get_idmap (env : Reader.REnv) (shared_files : List CollectRec) :
    Except Unit (List (String × Option String) × List String) :=
  match first_parents shared_files with
  | none => Except.error ()
  | some heads => idmapLoop env heads.reverse []

/-- Model of map_ids_to_names (collect_all.py lines 94 to 99): run the
lookup loop over the distinct identifier list as given. -/
def map_ids_to_names (env : Reader.REnv) (distinct_ids : List String) :
    Except Unit (List (String × Option String) × List String) :=
  idmapLoop env distinct_ids []

/-- One persisted document of the recordings collection: the first parent
drives the conditional update, created_by is the field the update sets, and
rest stands for every other field of the document. A created_by value none
means the field is absent, some v means it holds v, where v itself may be
None. -/
structure MongoDoc where
  parents : List String
  created_by : Option (Option String) := none
  rest : String := ""
deriving DecidableEq, Repr

/-- Model of one update_many call with filter parents.0 equal to fid and a
set of created_by (collect_all.py lines 103 to 106): every document whose
first parent equals fid gets created_by set to the given label, every other
document is untouched. -/
def update_many_created_by (fid : String) (label : Option String)
    (docs : List MongoDoc) : List MongoDoc :=
  docs.map fun d =>
    if d.parents.head? = some fid then { d with created_by := some label } else d

/-- Model of update_created_by_in_mongo (collect_all.py lines 101 to 107):
one update_many per identifier of distinct_ids, applied in order. The idmap
dictionary is modelled by its lookup function. -/
def update_created_by_in_mongo (distinct_ids : List String)
    (idmap : String → Option String) (docs : List MongoDoc) : List MongoDoc :=
  distinct_ids.foldl (fun acc fid => update_many_created_by fid (idmap fid) acc) docs

/-- Effect of the whole update run on a single document. -/
def docStep (distinct_ids : List String) (idmap : String → Option String)
    (d : MongoDoc) : MongoDoc :=
  distinct_ids.foldl
    (fun d fid => if d.parents.head? = some fid then { d with created_by := some (idmap fid) } else d) d

end CollectAll

namespace DriveList

/-- Test for a search event in a call trace. -/
def is_search_event : CallEv → Bool
  | CallEv.search _ _ => true
  | _ => false

end DriveList

namespace Wit

open DriveList

/-- Mime type of a folder in the remote store. -/
def folderMime : String := "application/vnd.google-apps.folder"

def fileX1 : FileRec := { id := "X1", name := "first" }

def fileX1b : FileRec := { id := "X1", name := "second" }

def fileA2 : FileRec := { id := "A2", name := "alpha" }

def fileB3 : FileRec := { id := "B3", name := "beta" }

/-- Query the run of envC1 issues for the root folder. -/
def qRoot : String := build_query "modifiedTime" "S" "E" (some "r") none none

/-- Query the run of envC1 issues for the subfolder. -/
def qSub : String := build_query "modifiedTime" "S" "E" (some "s") none none

/-- Environment for the C1 witness: root folder r with one subfolder s; the
record with identifier X1 is returned by both folder scoped queries, under
a different name the second time. -/
def envC1 : GEnv :=
  { parseDate := fun _ => none
    now := 0
    sub7days := fun d => d
    fmtStart := fun _ => "S"
    fmtEnd := fun _ => "E"
    getMeta := fun i =>
      if i = "r" then some { id := "r", name := "Root", mimeType := folderMime } else none
    listFolders := fun i =>
      if i = "r" then [PageResp.ok ["s"] false] else [PageResp.ok [] false]
    search := fun q =>
      if q = qRoot then [SearchResp.ok [fileX1, fileA2] false]
      else if q = qSub then [SearchResp.ok [fileX1b, fileB3] false]
      else [SearchResp.ok [] false] }

def fileReport : FileRec := { id := "R1", name := "Report.gdoc" }

def fileDraft : FileRec := { id := "R2", name := "Draft Report.gdoc" }

/-- Environment for the C3 witness: one folder whose query returns the two
candidate names of the scenario in the specification. -/
def envC3 : GEnv :=
  { parseDate := fun _ => none
    now := 0
    sub7days := fun d => d
    fmtStart := fun _ => "S"
    fmtEnd := fun _ => "E"
    getMeta := fun i =>
      if i = "r" then some { id := "r", name := "Root", mimeType := folderMime } else none
    listFolders := fun _ => [PageResp.ok [] false]
    search := fun q =>
      if q = qRoot then [SearchResp.ok [fileReport, fileDraft] false]
      else [SearchResp.ok [] false] }

/-- Environment for the C4 counterexample: the metadata fetch of the root
succeeds but reports a plain text mime type, not a folder. -/
def envC4x : GEnv :=
  { parseDate := fun _ => none
    now := 0
    sub7days := fun d => d
    fmtStart := fun _ => "S"
    fmtEnd := fun _ => "E"
    getMeta := fun i =>
      if i = "r" then some { id := "r", name := "Root", mimeType := "text/plain" } else none
    listFolders := fun _ => [PageResp.ok [] false]
    search := fun _ => [SearchResp.ok [fileA2] false] }

/-- Environment for the C4 witness: every metadata fetch raises. -/
def envC4w : GEnv :=
  { parseDate := fun _ => none
    now := 0
    sub7days := fun d => d
    fmtStart := fun _ => "S"
    fmtEnd := fun _ => "E"
    getMeta := fun _ => none
    listFolders := fun _ => [PageResp.ok [] false]
    search := fun _ => [SearchResp.ok [fileA2] false] }

/-- Environment for C5: the listing of folder r spans two pages; the first
page holds child c, the second child d. -/
def envC5 : GEnv :=
  { parseDate := fun _ => none
    now := 0
    sub7days := fun d => d
    fmtStart := fun _ => "S"
    fmtEnd := fun _ => "E"
    getMeta := fun _ => none
    listFolders := fun i =>
      if i = "r" then [PageResp.ok ["c"] true, PageResp.ok ["d"] false]
      else [PageResp.ok [] false]
    search := fun _ => [SearchResp.ok [] false] }

/-- Environment for the C6 counterexample: a reachable folder and a search
that returns one record, used with an unsupported search type value. -/
def envC6x : GEnv :=
  { parseDate := fun _ => none
    now := 0
    sub7days := fun d => d
    fmtStart := fun _ => "S"
    fmtEnd := fun _ => "E"
    getMeta := fun i =>
      if i = "r" then some { id := "r", name := "Root", mimeType := folderMime } else none
    listFolders := fun _ => [PageResp.ok [] false]
    search := fun _ => [SearchResp.ok [fileA2] false] }

/-- Environment for the C6 witness: strptime fails on every string. -/
def envC6w : GEnv :=
  { parseDate := fun _ => none
    now := 0
    sub7days := fun d => d
    fmtStart := fun _ => "S"
    fmtEnd := fun _ => "E"
    getMeta := fun _ => none
    listFolders := fun _ => [PageResp.ok [] false]
    search := fun _ => [SearchResp.ok [] false] }

/-- Reader environment for C2: folder p resolves to the name Alice, every
other identifier yields a None metadata. -/
def envC2 : Reader.REnv :=
  { getMeta := fun i =>
      if i = "p" then
        Except.ok (some { name := some "Alice", mimeType := some folderMime })
      else Except.ok none
    exportDoc := fun _ => Except.ok none
    exportSheet := fun _ => Except.ok none }

def recP1 : CollectAll.CollectRec := { id := "f1", name := "A", parents := ["p"] }

def recP2 : CollectAll.CollectRec := { id := "f2", name := "B", parents := ["p"] }

/-- Reader environment for C8: identifier good is a readable document,
identifier boom raises an unexpected exception, every other identifier
yields a None metadata. -/
def envC8 : Reader.REnv :=
  { getMeta := fun i =>
      if i = "good" then
        Except.ok (some { name := some "Doc1",
                          mimeType := some "application/vnd.google-apps.document" })
      else if i = "boom" then Except.error ()
      else Except.ok none
    exportDoc := fun i => if i = "good" then Except.ok (some "hello") else Except.ok none
    exportSheet := fun _ => Except.ok none }

def recA : CollectAll.CollectRec := { id := "g1", name := "A", parents := ["p"] }

def recB : CollectAll.CollectRec := { id := "g2", name := "B", parents := ["p"] }

/-- Content tuple whose name matches recA. -/
def pairA : Option String × Option String := (some "A", some "ca")

/-- Content tuple whose name does not match recB. -/
def pairX : Option String × Option String := (some "X", some "cb")

end Wit

namespace DriveList

theorem filter_by_exclude_keywords_sublist (files : List FileRec) (kws : List String) :
    (filter_by_exclude_keywords files kws).Sublist files := by
  unfold filter_by_exclude_keywords
  split
  · exact List.Sublist.refl files
  · exact List.filter_sublist files

theorem dedup_sublist (seen : List String) (l : List FileRec) :
    (dedup seen l).Sublist l := by
  induction l generalizing seen with
  | nil => simp [dedup]
  | cons f rest ih =>
    simp only [dedup]
    by_cases hf : f.id ∈ seen
    · rw [if_pos hf]
      exact (ih seen).cons f
    · rw [if_neg hf]
      exact (ih (f.id :: seen)).cons₂ f

theorem dedup_mem (seen : List String) (l : List FileRec) (r : FileRec)
    (h : r ∈ dedup seen l) :
    r.id ∉ seen ∧ l.find? (fun x => x.id == r.id) = some r := by
  induction l generalizing seen with
  | nil => simp [dedup] at h
  | cons f rest ih =>
    simp only [dedup] at h
    by_cases hf : f.id ∈ seen
    · rw [if_pos hf] at h
      obtain ⟨hns, hfind⟩ := ih seen h
      have hne : (f.id == r.id) = false := by
        refine beq_eq_false_iff_ne.mpr ?_
        intro he
        exact hns (he ▸ hf)
      exact ⟨hns, by simp [List.find?, hne, hfind]⟩
    · rw [if_neg hf] at h
      rcases List.mem_cons.mp h with h1 | h1
      · subst h1
        exact ⟨hf, by simp [List.find?]⟩
      · obtain ⟨hns, hfind⟩ := ih (f.id :: seen) h1
        have hne : (f.id == r.id) = false := by
          refine beq_eq_false_iff_ne.mpr ?_
          intro he
          exact hns (by simp [he])
        refine ⟨fun hc => hns (List.mem_cons_of_mem _ hc), ?_⟩
        simp [List.find?, hne, hfind]

theorem dedup_ids_nodup (seen : List String) (l : List FileRec) :
    ((dedup seen l).map FileRec.id).Nodup := by
  induction l generalizing seen with
  | nil => simp [dedup]
  | cons f rest ih =>
    simp only [dedup]
    by_cases hf : f.id ∈ seen
    · rw [if_pos hf]
      exact ih seen
    · rw [if_neg hf]
      simp only [List.map_cons, List.nodup_cons]
      refine ⟨?_, ih (f.id :: seen)⟩
      intro hmem
      obtain ⟨r, hr, hid⟩ := List.mem_map.mp hmem
      obtain ⟨hns, _⟩ := dedup_mem (f.id :: seen) rest r hr
      exact hns (by simp [hid])

theorem filter_exclude_nil (kws : List String) : filter_by_exclude_keywords [] kws = [] := by
  simp [filter_by_exclude_keywords]

theorem postprocess_nil (ek : Option (List String)) : postprocess ek [] = [] := by
  simp [postprocess, dedup, filter_exclude_nil]

theorem postprocess_sublist (ek : Option (List String)) (all : List FileRec) :
    (postprocess ek all).Sublist (dedup [] all) := by
  simp only [postprocess]
  split
  · exact filter_by_exclude_keywords_sublist _ _
  · exact List.Sublist.refl _

theorem discover_run_snd (env : GEnv) (fuel : Nat) (folder_id : Option String)
    (sd ed : Option DateArg) (st : String) (recursive : Bool)
    (ft kw ek : Option (List String)) (all res : List FileRec) (tr : List CallEv)
    (h : discover_run env fuel folder_id sd ed st recursive ft kw ek
          = (Except.ok (all, res), tr)) :
    res = postprocess ek all := by
  simp only [discover_run, discovery_after_verify] at h
  split at h
  · simp at h
  · split at h
    · simp at h
    · split at h
      · split at h
        · obtain ⟨h1, -⟩ := Prod.mk.injEq .. ▸ h
          obtain ⟨h2, h3⟩ := Prod.mk.injEq .. ▸ Except.ok.inj h1
          rw [← h3, ← h2, postprocess_nil]
        · obtain ⟨h1, -⟩ := Prod.mk.injEq .. ▸ h
          obtain ⟨h2, h3⟩ := Prod.mk.injEq .. ▸ Except.ok.inj h1
          rw [← h3, ← h2]
      · obtain ⟨h1, -⟩ := Prod.mk.injEq .. ▸ h
        obtain ⟨h2, h3⟩ := Prod.mk.injEq .. ▸ Except.ok.inj h1
        rw [← h3, ← h2]

/-- C1: a successful discovery run returns a list with pairwise distinct
identifiers that is a subsequence of the merged folder scoped results, and
every returned record is the first record carrying its identifier in the
merged list: deduplication keeps the first seen record and preserves first
seen order, also when one record arrives from two different folders. -/
theorem C1_dedup_first_seen (env : GEnv) (fuel : Nat) (folder_id : Option String)
    (sd ed : Option DateArg) (st : String) (recursive : Bool)
    (ft kw ek : Option (List String)) (all res : List FileRec) (tr : List CallEv)
    (h : discover_run env fuel folder_id sd ed st recursive ft kw ek
          = (Except.ok (all, res), tr)) :
    get_files_in_date_range env fuel folder_id sd ed st recursive ft kw ek
        = (Except.ok res, tr) ∧
    (res.map FileRec.id).Nodup ∧
    res.Sublist all ∧
    ∀ r ∈ res, all.find? (fun x => x.id == r.id) = some r := by
  have hres := discover_run_snd env fuel folder_id sd ed st recursive ft kw ek all res tr h
  refine ⟨?_, ?_, ?_, ?_⟩
  · simp only [get_files_in_date_range, h]
    rfl
  · rw [hres]
    exact ((dedup_ids_nodup [] all).sublist ((postprocess_sublist ek all).map FileRec.id))
  · rw [hres]
    exact (postprocess_sublist ek all).trans (dedup_sublist [] all)
  · intro r hr
    rw [hres] at hr
    exact (dedup_mem [] all r ((postprocess_sublist ek all).subset hr)).2

/-- C3: every record returned by a successful discovery run with a non
empty exclude keyword list has a name containing, case insensitively, none
of the keywords; the survivors form a subsequence of the deduplicated
candidate list, so they keep their relative order. -/
theorem C3_exclude_keywords (env : GEnv) (fuel : Nat) (folder_id : Option String)
    (sd ed : Option DateArg) (st : String) (recursive : Bool)
    (ft kw : Option (List String)) (kws : List String)
    (all res : List FileRec) (tr : List CallEv)
    (h : discover_run env fuel folder_id sd ed st recursive ft kw (some kws)
          = (Except.ok (all, res), tr))
    (hne : kws ≠ []) :
    get_files_in_date_range env fuel folder_id sd ed st recursive ft kw (some kws)
        = (Except.ok res, tr) ∧
    (∀ r ∈ res, ∀ k ∈ kws, ¬ (lower k <:+: lower r.name)) ∧
    res.Sublist (dedup [] all) := by
  have hres := discover_run_snd env fuel folder_id sd ed st recursive ft kw (some kws)
    all res tr h
  have hkE : kws.isEmpty = false := by
    cases kws with
    | nil => exact absurd rfl hne
    | cons a t => rfl
  have hpp : res = (dedup [] all).filter (fun f => !(should_exclude f kws)) := by
    rw [hres]
    simp [postprocess, truthy, hkE, filter_by_exclude_keywords]
  refine ⟨?_, ?_, ?_⟩
  · simp only [get_files_in_date_range, h]
    rfl
  · intro r hr k hk
    rw [hpp] at hr
    have hx : (!(should_exclude r kws)) = true := (List.mem_filter.mp hr).2
    have hse : should_exclude r kws = false := by
      cases hb : should_exclude r kws with
      | false => rfl
      | true => rw [hb] at hx; exact absurd hx (by decide)
    have hall := List.any_eq_false.mp hse k hk
    exact fun hp => hall (decide_eq_true hp)
  · rw [hpp]
    exact List.filter_sublist _

/-- C7: execute_search returns exactly the records of the pages fetched
before a failure, and on a failure free run the concatenation of all pages
up to the page that carries no continuation token; being a total function
into a plain list, no exception reaches the caller in either case. -/
theorem C7_execute_search_pagination (okPages : List (List FileRec))
    (lastPage : List FileRec) (rest : List SearchResp) :
    execute_search ((okPages.map fun p => SearchResp.ok p true) ++ SearchResp.err :: rest)
        = okPages.flatten ∧
    execute_search ((okPages.map fun p => SearchResp.ok p true)
          ++ SearchResp.ok lastPage false :: rest)
        = okPages.flatten ++ lastPage := by
  induction okPages with
  | nil => exact ⟨rfl, rfl⟩
  | cons p ps ih =>
    refine ⟨?_, ?_⟩
    · simp only [List.map_cons, List.cons_append, execute_search, if_pos, List.append_eq]
      rw [ih.1, List.flatten_cons]
    · simp only [List.map_cons, List.cons_append, execute_search, if_pos, List.append_eq]
      rw [ih.2, List.flatten_cons, List.append_assoc]

/-- C4 (amended): the discovery call aborts with an empty result, after the
single metadata call and before any folder search, exactly when the root
metadata fetch raises; when the fetch returns metadata, the run continues
with the search pipeline whatever the reported mime type, since the non
folder case only prints a warning. -/
theorem C4_root_verification (env : GEnv) (fuel : Nat) (fid : String)
    (sd ed : Option DateArg) (st : String) (recursive : Bool)
    (ft kw ek : Option (List String)) (sParsed eParsed : Option Date)
    (hs : parseDateArg env sd = Except.ok sParsed)
    (he : parseDateArg env ed = Except.ok eParsed) :
    (env.getMeta fid = none →
      discover_run env fuel (some fid) sd ed st recursive ft kw ek
          = (Except.ok ([], []), [CallEv.getMeta fid]) ∧
      get_files_in_date_range env fuel (some fid) sd ed st recursive ft kw ek
          = (Except.ok [], [CallEv.getMeta fid])) ∧
    ((env.getMeta fid).isSome = true →
      discover_run env fuel (some fid) sd ed st recursive ft kw ek
          = ((discovery_after_verify env fuel fid recursive (time_field st)
                (env.fmtStart (sParsed.getD (env.sub7days (eParsed.getD env.now))))
                (env.fmtEnd (eParsed.getD env.now)) ft kw ek).1,
             CallEv.getMeta fid ::
               (discovery_after_verify env fuel fid recursive (time_field st)
                 (env.fmtStart (sParsed.getD (env.sub7days (eParsed.getD env.now))))
                 (env.fmtEnd (eParsed.getD env.now)) ft kw ek).2)) := by
  constructor
  · intro hm
    constructor
    · simp only [discover_run, hs, he, verify_folder_access, hm]
    · simp only [get_files_in_date_range, discover_run, hs, he, verify_folder_access, hm]
      rfl
  · intro hm
    obtain ⟨m, hm2⟩ := Option.isSome_iff_exists.mp hm
    simp only [discover_run, hs, he, verify_folder_access, hm2]

/-- C5 (amended): after the first page of a folder listing that carries a
continuation token, get_all_subfolders first recurses into every child of
that page and only then requests the next page, so a child is recursed into
while a later page of the parent listing is still undrained. -/
theorem C5_page_drain_order (env : GEnv) (fuel : Nat) (fid : String)
    (folders : List String) (rest : List PageResp)
    (h : env.listFolders fid = PageResp.ok folders true :: rest) :
    get_all_subfolders env (fuel + 1) fid
      = ((subfolder_children (fun c => get_all_subfolders env fuel c) folders).1
           ++ (subfolder_pages (fun c => get_all_subfolders env fuel c) fid 1 rest).1,
         CallEv.listChildren fid 0
           :: ((subfolder_children (fun c => get_all_subfolders env fuel c) folders).2
                ++ (subfolder_pages (fun c => get_all_subfolders env fuel c) fid 1 rest).2)) := by
  simp only [get_all_subfolders, h, subfolder_pages, if_pos]

/-- C5 counterexample: in envC5 the listing of folder r has two pages; the
trace shows the listing call for child c of page zero issued before the
call for page one of r, refuting that all pages are drained before any
recursion into a child. -/
theorem C5_counterexample :
    get_all_subfolders Wit.envC5 3 "r"
      = (["c", "d"],
         [CallEv.listChildren "r" 0, CallEv.listChildren "c" 0,
          CallEv.listChildren "r" 1, CallEv.listChildren "d" 0]) ∧
    [CallEv.listChildren "r" 0, CallEv.listChildren "c" 0,
     CallEv.listChildren "r" 1, CallEv.listChildren "d" 0].indexOf (CallEv.listChildren "c" 0)
      < [CallEv.listChildren "r" 0, CallEv.listChildren "c" 0,
         CallEv.listChildren "r" 1, CallEv.listChildren "d" 0].indexOf
           (CallEv.listChildren "r" 1) := by
  decide

/-- C6 (amended): a date string strptime cannot parse makes the call raise
before any remote call, start date first, end date second; but a search
type other than modified is not rejected: the run behaves exactly as with
the value created, through the silent fallback to createdTime. -/
theorem C6_filter_input_validation (env : GEnv) (fuel : Nat) (folder_id : Option String)
    (startStr endStr : String) (sd ed : Option DateArg) (sParsed : Option Date)
    (st : String) (recursive : Bool) (ft kw ek : Option (List String)) :
    (env.parseDate startStr = none →
      discover_run env fuel folder_id (some (DateArg.str startStr)) ed st recursive ft kw ek
          = (Except.error (), []) ∧
      get_files_in_date_range env fuel folder_id (some (DateArg.str startStr)) ed st
          recursive ft kw ek = (Except.error (), [])) ∧
    (parseDateArg env sd = Except.ok sParsed → env.parseDate endStr = none →
      discover_run env fuel folder_id sd (some (DateArg.str endStr)) st recursive ft kw ek
          = (Except.error (), []) ∧
      get_files_in_date_range env fuel folder_id sd (some (DateArg.str endStr)) st
          recursive ft kw ek = (Except.error (), [])) ∧
    (st ≠ "modified" →
      get_files_in_date_range env fuel folder_id sd ed st recursive ft kw ek
          = get_files_in_date_range env fuel folder_id sd ed "created" recursive ft kw ek) := by
  refine ⟨?_, ?_, ?_⟩
  · intro hp
    have h1 : parseDateArg env (some (DateArg.str startStr)) = Except.error () := by
      simp [parseDateArg, hp]
    constructor
    · simp only [discover_run, h1]
    · simp only [get_files_in_date_range, discover_run, h1]
      rfl
  · intro hsd hp
    have h1 : parseDateArg env (some (DateArg.str endStr)) = Except.error () := by
      simp [parseDateArg, hp]
    constructor
    · simp only [discover_run, hsd, h1]
    · simp only [get_files_in_date_range, discover_run, hsd, h1]
      rfl
  · intro hst
    have hc : time_field st = time_field "created" := by
      simp [time_field, hst]
    simp only [get_files_in_date_range, discover_run, hc]

/-- C4 counterexample: in envC4x the root metadata reports the mime type
text/plain, not a folder, yet the call returns a record and its trace shows
an executed folder search, refuting that a non folder root fails the whole
call. -/
theorem C4_counterexample :
    Wit.envC4x.getMeta "r" = some { id := "r", name := "Root", mimeType := "text/plain" } ∧
    "text/plain" ≠ Wit.folderMime ∧
    (get_files_in_date_range Wit.envC4x 1 (some "r") (some (DateArg.dt 0))
        (some (DateArg.dt 0)) "modified" false none none none).1
      = Except.ok [Wit.fileA2] ∧
    ((get_files_in_date_range Wit.envC4x 1 (some "r") (some (DateArg.dt 0))
        (some (DateArg.dt 0)) "modified" false none none none).2.any is_search_event)
      = true := by
  decide

/-- C6 counterexample: with the unsupported search type banana the call is
not rejected: it completes with a record and issues remote calls. -/
theorem C6_counterexample :
    (get_files_in_date_range Wit.envC6x 1 (some "r") (some (DateArg.dt 0))
        (some (DateArg.dt 0)) "banana" false none none none).1 = Except.ok [Wit.fileA2] ∧
    (get_files_in_date_range Wit.envC6x 1 (some "r") (some (DateArg.dt 0))
        (some (DateArg.dt 0)) "banana" false none none none).2 ≠ [] := by
  decide

/-- C1 witness: the dedup theorem applied to the concrete run of envC1, in
which the record X1 arrives from the queries of two different folders. -/
theorem C1_witness :
    discover_run Wit.envC1 2 (some "r") (some (DateArg.dt 0)) (some (DateArg.dt 0))
        "modified" true none none none
      = (Except.ok ([Wit.fileX1, Wit.fileA2, Wit.fileX1b, Wit.fileB3],
                    [Wit.fileX1, Wit.fileA2, Wit.fileB3]),
         [CallEv.getMeta "r", CallEv.listChildren "r" 0, CallEv.listChildren "s" 0,
          CallEv.search Wit.qRoot 0, CallEv.search Wit.qSub 0]) ∧
    ([Wit.fileX1, Wit.fileA2, Wit.fileB3].map FileRec.id).Nodup ∧
    [Wit.fileX1, Wit.fileA2, Wit.fileB3].Sublist
      [Wit.fileX1, Wit.fileA2, Wit.fileX1b, Wit.fileB3] := by
  refine ⟨by decide, ?_, ?_⟩
  · exact (C1_dedup_first_seen Wit.envC1 2 (some "r") (some (DateArg.dt 0))
      (some (DateArg.dt 0)) "modified" true none none none
      [Wit.fileX1, Wit.fileA2, Wit.fileX1b, Wit.fileB3]
      [Wit.fileX1, Wit.fileA2, Wit.fileB3]
      [CallEv.getMeta "r", CallEv.listChildren "r" 0, CallEv.listChildren "s" 0,
       CallEv.search Wit.qRoot 0, CallEv.search Wit.qSub 0] (by decide)).2.1
  · exact (C1_dedup_first_seen Wit.envC1 2 (some "r") (some (DateArg.dt 0))
      (some (DateArg.dt 0)) "modified" true none none none
      [Wit.fileX1, Wit.fileA2, Wit.fileX1b, Wit.fileB3]
      [Wit.fileX1, Wit.fileA2, Wit.fileB3]
      [CallEv.getMeta "r", CallEv.listChildren "r" 0, CallEv.listChildren "s" 0,
       CallEv.search Wit.qRoot 0, CallEv.search Wit.qSub 0] (by decide)).2.2.1

/-- C3 witness: the exclude keyword theorem applied to the scenario of the
specification, where only Report.gdoc survives the keyword draft. -/
theorem C3_witness :
    discover_run Wit.envC3 1 (some "r") (some (DateArg.dt 0)) (some (DateArg.dt 0))
        "modified" false none none (some ["draft"])
      = (Except.ok ([Wit.fileReport, Wit.fileDraft], [Wit.fileReport]),
         [CallEv.getMeta "r", CallEv.search Wit.qRoot 0]) ∧
    (["draft"] : List String) ≠ [] ∧
    ¬ (lower "draft" <:+: lower Wit.fileReport.name) := by
  refine ⟨by decide, by decide, ?_⟩
  exact (C3_exclude_keywords Wit.envC3 1 (some "r") (some (DateArg.dt 0))
      (some (DateArg.dt 0)) "modified" false none none ["draft"]
      [Wit.fileReport, Wit.fileDraft] [Wit.fileReport]
      [CallEv.getMeta "r", CallEv.search Wit.qRoot 0] (by decide) (by decide)).2.1
      Wit.fileReport (by decide) "draft" (by decide)

/-- C4 witness: the amended root verification theorem applied to envC4w, an
environment where every metadata fetch raises. -/
theorem C4_witness :
    Wit.envC4w.getMeta "r" = none ∧
    discover_run Wit.envC4w 1 (some "r") (some (DateArg.dt 0)) (some (DateArg.dt 0))
        "modified" false none none none = (Except.ok ([], []), [CallEv.getMeta "r"]) ∧
    get_files_in_date_range Wit.envC4w 1 (some "r") (some (DateArg.dt 0))
        (some (DateArg.dt 0)) "modified" false none none none
      = (Except.ok [], [CallEv.getMeta "r"]) := by
  refine ⟨rfl, ?_⟩
  exact (C4_root_verification Wit.envC4w 1 "r" (some (DateArg.dt 0)) (some (DateArg.dt 0))
    "modified" false none none none (some 0) (some 0) rfl rfl).1 rfl

/-- C5 witness: the page order theorem applied to envC5, whose folder r has
a two page listing. -/
theorem C5_witness :
    Wit.envC5.listFolders "r" = PageResp.ok ["c"] true :: [PageResp.ok ["d"] false] ∧
    get_all_subfolders Wit.envC5 (2 + 1) "r"
      = ((subfolder_children (fun c => get_all_subfolders Wit.envC5 2 c) ["c"]).1
           ++ (subfolder_pages (fun c => get_all_subfolders Wit.envC5 2 c) "r" 1
                 [PageResp.ok ["d"] false]).1,
         CallEv.listChildren "r" 0
           :: ((subfolder_children (fun c => get_all_subfolders Wit.envC5 2 c) ["c"]).2
                ++ (subfolder_pages (fun c => get_all_subfolders Wit.envC5 2 c) "r" 1
                      [PageResp.ok ["d"] false]).2)) := by
  exact ⟨rfl, C5_page_drain_order Wit.envC5 2 "r" ["c"] [PageResp.ok ["d"] false] rfl⟩

/-- C6 witness: the validation theorem applied to envC6w for the fatal
unparseable date, and to envC6x for the silent search type fallback. -/
theorem C6_witness :
    Wit.envC6w.parseDate "2025-13-99" = none ∧
    (discover_run Wit.envC6w 1 none (some (DateArg.str "2025-13-99")) none "modified"
        false none none none = (Except.error (), []) ∧
     get_files_in_date_range Wit.envC6w 1 none (some (DateArg.str "2025-13-99")) none
        "modified" false none none none = (Except.error (), [])) ∧
    get_files_in_date_range Wit.envC6x 1 (some "r") (some (DateArg.dt 0))
        (some (DateArg.dt 0)) "banana" false none none none
      = get_files_in_date_range Wit.envC6x 1 (some "r") (some (DateArg.dt 0))
          (some (DateArg.dt 0)) "created" false none none none := by
  refine ⟨rfl, ?_, ?_⟩
  · exact (C6_filter_input_validation Wit.envC6w 1 none "2025-13-99" "x" none none
      none "modified" false none none none).1 rfl
  · exact (C6_filter_input_validation Wit.envC6x 1 (some "r") "a" "b"
      (some (DateArg.dt 0)) (some (DateArg.dt 0)) (some 0) "banana" false
      none none none).2.2 (by decide)

end DriveList

namespace Reader

theorem read_multiple_files_map (env : REnv) (ids : List String) :
    read_multiple_files env ids = ids.map (item_result env) := by
  induction ids with
  | nil => rfl
  | cons a t ih => simp [read_multiple_files, ih]

/-- C8: read_multiple_files returns one tuple per input identifier, in
input order: the result is the pointwise image of the input list, so it has
the same length, the tuple at position i is determined by the identifier at
position i, and a position whose read_file_content call raised holds the
pair (none, none); a per item exception never aborts the remaining items. -/
theorem C8_read_multiple_files_order (env : REnv) (ids : List String) :
    read_multiple_files env ids = ids.map (item_result env) ∧
    (read_multiple_files env ids).length = ids.length ∧
    ∀ i, i < ids.length → ∀ fid, ids[i]? = some fid →
      (read_multiple_files env ids)[i]? = some (item_result env fid) ∧
      (read_file_content env fid = Except.error () →
        (read_multiple_files env ids)[i]? = some (none, none)) := by
  refine ⟨read_multiple_files_map env ids, ?_, ?_⟩
  · rw [read_multiple_files_map env ids, List.length_map]
  · intro i hi fid hfid
    have hidx : (read_multiple_files env ids)[i]? = some (item_result env fid) := by
      rw [read_multiple_files_map env ids, List.getElem?_map, hfid]
      rfl
    refine ⟨hidx, fun herr => ?_⟩
    rw [hidx]
    simp [item_result, herr]

/-- C8 witness: the order theorem applied to envC8, where the middle
identifier raises and the final identifier has no readable metadata. -/
theorem C8_witness :
    read_multiple_files Wit.envC8 ["good", "boom", "gone"]
      = ["good", "boom", "gone"].map (item_result Wit.envC8) ∧
    read_file_content Wit.envC8 "boom" = Except.error () ∧
    (read_multiple_files Wit.envC8 ["good", "boom", "gone"])[1]? = some (none, none) := by
  refine ⟨(C8_read_multiple_files_order Wit.envC8 ["good", "boom", "gone"]).1, rfl, ?_⟩
  exact ((C8_read_multiple_files_order Wit.envC8 ["good", "boom", "gone"]).2.2 1 (by decide)
    "boom" rfl).2 rfl

end Reader

namespace CollectAll

theorem idmapLoop_calls (env : Reader.REnv) (l : List String)
    (m0 m : List (String × Option String)) (calls : List String)
    (h : idmapLoop env l m0 = Except.ok (m, calls)) : calls = l := by
  induction l generalizing m0 m calls with
  | nil =>
    simp only [idmapLoop] at h
    obtain ⟨-, h2⟩ := Prod.mk.injEq .. ▸ Except.ok.inj h
    exact h2.symm
  | cons fid rest ih =>
    simp only [idmapLoop] at h
    cases hrc : Reader.read_file_content env fid with
    | error e =>
      simp only [hrc] at h
      exact Except.noConfusion h
    | ok p =>
      simp only [hrc] at h
      cases hloop : idmapLoop env rest (dictInsert m0 fid p.1) with
      | error e =>
        simp only [hloop] at h
        exact Except.noConfusion h
      | ok pr =>
        simp only [hloop] at h
        obtain ⟨-, h2⟩ := Prod.mk.injEq .. ▸ Except.ok.inj h
        rw [← h2, ih (dictInsert m0 fid p.1) pr.1 pr.2 (by rw [hloop])]

theorem first_parents_count (files : List CollectRec) (heads : List String)
    (h : first_parents files = some heads) (fid : String) :
    heads.count fid = (files.filter (fun f => f.parents.head? = some fid)).length := by
  induction files generalizing heads with
  | nil =>
    simp only [first_parents, Option.some.injEq] at h
    subst h
    simp
  | cons f fs ih =>
    simp only [first_parents] at h
    cases hh : f.parents.head? with
    | none =>
      simp only [hh] at h
      exact Option.noConfusion h
    | some hd =>
      simp only [hh] at h
      cases hfp : first_parents fs with
      | none =>
        simp only [hfp] at h
        exact Option.noConfusion h
      | some t =>
        simp only [hfp, Option.some.injEq] at h
        subst h
        rw [List.count_cons, List.filter_cons]
        by_cases hix : hd = fid
        · subst hix
          simp [hh, ih t hfp]
        · simp [hh, hix, ih t hfp]

/-- C2 (amended): get_idmap issues one reader lookup per record, since the
tuple conversion keeps duplicate parent identifiers, so a folder shared by
N records is looked up N times, not once; map_ids_to_names issues exactly
its input list as lookups, hence at most one lookup per distinct folder
identifier whenever the input identifiers are pairwise distinct. -/
theorem C2_lookup_per_parent (env : Reader.REnv) (shared_files : List CollectRec)
    (distinct_ids : List String)
    (m : List (String × Option String)) (calls : List String)
    (m2 : List (String × Option String)) (calls2 : List String)
    (h1 : get_idmap env shared_files = Except.ok (m, calls))
    (h2 : map_ids_to_names env distinct_ids = Except.ok (m2, calls2)) :
    (∀ fid, calls.count fid
        = (shared_files.filter (fun f => f.parents.head? = some fid)).length) ∧
    calls2 = distinct_ids ∧
    (distinct_ids.Nodup → ∀ fid ∈ distinct_ids, calls2.count fid = 1) := by
  have hcalls2 : calls2 = distinct_ids :=
    idmapLoop_calls env distinct_ids [] m2 calls2 h2
  refine ⟨?_, hcalls2, ?_⟩
  · intro fid
    simp only [get_idmap] at h1
    cases hfp : first_parents shared_files with
    | none =>
      simp only [hfp] at h1
      exact Except.noConfusion h1
    | some heads =>
      simp only [hfp] at h1
      rw [idmapLoop_calls env heads.reverse [] m calls h1, List.count_reverse]
      exact first_parents_count shared_files heads hfp fid
  · intro hnd fid hmem
    rw [hcalls2]
    exact List.count_eq_one_of_mem hnd hmem

/-- C2 counterexample: two records share the parent folder p, and the run
of get_idmap calls the reader twice for p, not once. -/
theorem C2_counterexample :
    get_idmap Wit.envC2 [Wit.recP1, Wit.recP2]
      = Except.ok ([("p", some "Alice")], ["p", "p"]) ∧
    ¬ ((["p", "p"] : List String).count "p" = 1) := by
  decide

/-- C2 witness: the amended lookup theorem applied to the concrete batch
with a shared parent and to a distinct identifier list. -/
theorem C2_witness :
    get_idmap Wit.envC2 [Wit.recP1, Wit.recP2]
      = Except.ok ([("p", some "Alice")], ["p", "p"]) ∧
    (["p", "p"] : List String).count "p"
      = ([Wit.recP1, Wit.recP2].filter (fun f => f.parents.head? = some "p")).length ∧
    map_ids_to_names Wit.envC2 ["p", "q"]
      = Except.ok ([("p", some "Alice"), ("q", none)], ["p", "q"]) ∧
    (["p", "q"] : List String).count "p" = 1 := by
  refine ⟨by decide, ?_, by decide, ?_⟩
  · exact (C2_lookup_per_parent Wit.envC2 [Wit.recP1, Wit.recP2] ["p", "q"]
      [("p", some "Alice")] ["p", "p"] [("p", some "Alice"), ("q", none)] ["p", "q"]
      (by decide) (by decide)).1 "p"
  · exact (C2_lookup_per_parent Wit.envC2 [Wit.recP1, Wit.recP2] ["p", "q"]
      [("p", some "Alice")] ["p", "p"] [("p", some "Alice"), ("q", none)] ["p", "q"]
      (by decide) (by decide)).2.2 (by decide) "p" (by decide)

theorem update_run_map (ids : List String) (m : String → Option String)
    (docs : List MongoDoc) :
    update_created_by_in_mongo ids m docs = docs.map (docStep ids m) := by
  induction ids generalizing docs with
  | nil => exact (List.map_id docs).symm
  | cons fid rest ih =>
    simp only [update_created_by_in_mongo, List.foldl_cons] at *
    rw [ih (update_many_created_by fid (m fid) docs)]
    simp only [update_many_created_by, List.map_map]
    rfl

theorem docStep_head_none (ids : List String) (m : String → Option String)
    (d : MongoDoc) (h : d.parents.head? = none) : docStep ids m d = d := by
  induction ids with
  | nil => rfl
  | cons fid rest ih =>
    simp only [docStep, List.foldl_cons, h]
    simpa [docStep] using ih

theorem docStep_not_mem (ids : List String) (m : String → Option String)
    (d : MongoDoc) (hd : String) (h : d.parents.head? = some hd)
    (hnm : hd ∉ ids) : docStep ids m d = d := by
  induction ids with
  | nil => rfl
  | cons fid rest ih =>
    have hne : hd ≠ fid := fun he => hnm (he ▸ List.mem_cons_self fid rest)
    simp only [docStep, List.foldl_cons, h, Option.some.injEq]
    rw [if_neg hne]
    exact ih (fun hc => hnm (List.mem_cons_of_mem fid hc))

theorem docStep_mem (ids : List String) (m : String → Option String)
    (d : MongoDoc) (hd : String) (h : d.parents.head? = some hd)
    (hm : hd ∈ ids) : docStep ids m d = { d with created_by := some (m hd) } := by
  induction ids generalizing d with
  | nil => exact absurd hm (List.not_mem_nil hd)
  | cons fid rest ih =>
    simp only [docStep, List.foldl_cons, h, Option.some.injEq]
    by_cases hfid : hd = fid
    · subst hfid
      rw [if_pos rfl]
      by_cases hrest : hd ∈ rest
      · have := ih { d with created_by := some (m hd) } (by simpa using h) hrest
        simpa [docStep] using this
      · have := docStep_not_mem rest m { d with created_by := some (m hd) } hd
          (by simpa using h) hrest
        simpa [docStep] using this
    · rw [if_neg hfid]
      have hrest : hd ∈ rest := by
        rcases List.mem_cons.mp hm with h1 | h1
        · exact absurd h1 hfid
        · exact h1
      simpa [docStep] using ih d h hrest

theorem docStep_idem (ids : List String) (m : String → Option String) (d : MongoDoc) :
    docStep ids m (docStep ids m d) = docStep ids m d := by
  cases hh : d.parents.head? with
  | none =>
    rw [docStep_head_none ids m d hh, docStep_head_none ids m d hh]
  | some hd =>
    by_cases hm : hd ∈ ids
    · rw [docStep_mem ids m d hd hh hm,
        docStep_mem ids m { d with created_by := some (m hd) } hd (by simpa using hh) hm]
    · rw [docStep_not_mem ids m d hd hh hm, docStep_not_mem ids m d hd hh hm]

/-- C9: one run of update_created_by_in_mongo sets created_by on every
document whose first parent occurs in the identifier list, using the value
of the map at that parent; a second run with the same list and map matches
the same documents and sets the same values, so the store is unchanged: the
bulk conditional update is idempotent. -/
theorem C9_update_created_by_idempotent (distinct_ids : List String)
    (idmap : String → Option String) (docs : List MongoDoc) :
    update_created_by_in_mongo distinct_ids idmap
        (update_created_by_in_mongo distinct_ids idmap docs)
      = update_created_by_in_mongo distinct_ids idmap docs := by
  rw [update_run_map, update_run_map, List.map_map]
  refine List.map_congr_left ?_
  intro d _
  exact docStep_idem distinct_ids idmap d

/-- C10: over equal length inputs, add_contents_to_files returns a list of
the same length in which position i equals the input record at i with only
the content key set to the tuple content, and that exactly when the tuple
name equals the record name; at positions where the names differ the record
is returned untouched, so an absent content key stays absent and no other
key of any record ever changes. -/
theorem C10_add_contents_frame (files : List CollectRec)
    (cs : List (Option String × Option String)) (out : List CollectRec)
    (hlen : files.length = cs.length)
    (h : add_contents_to_files files cs = some out) :
    out.length = files.length ∧
    ∀ i, i < files.length → ∀ f c, files[i]? = some f → cs[i]? = some c →
      ((c.1 = some f.name → out[i]? = some { f with content := some c.2 }) ∧
       (c.1 ≠ some f.name → out[i]? = some f)) := by
  have hle : files.length ≤ cs.length := le_of_eq hlen
  have hout : out = (files.zip cs).map fun fc =>
      if fc.2.1 = some fc.1.name then { fc.1 with content := some fc.2.2 } else fc.1 := by
    simp only [add_contents_to_files, if_pos hle, Option.some.injEq] at h
    exact h.symm
  constructor
  · rw [hout, List.length_map, List.length_zip, hlen, Nat.min_self]
  · intro i hi f c hf hc
    have hzip : (files.zip cs)[i]? = some (f, c) :=
      List.getElem?_zip_eq_some.mpr ⟨hf, hc⟩
    have hidx : out[i]? = some (if c.1 = some f.name
        then { f with content := some c.2 } else f) := by
      rw [hout, List.getElem?_map, hzip]
      rfl
    constructor
    · intro hname
      rw [hidx, if_pos hname]
    · intro hname
      rw [hidx, if_neg hname]

/-- C10 witness: the frame theorem applied to a concrete pair of lists with
one matching and one non matching name. -/
theorem C10_witness :
    add_contents_to_files [Wit.recA, Wit.recB] [Wit.pairA, Wit.pairX]
      = some [{ Wit.recA with content := some (some "ca") }, Wit.recB] ∧
    ([Wit.recA, Wit.recB] : List CollectRec).length = [Wit.pairA, Wit.pairX].length ∧
    (some [{ Wit.recA with content := some (some "ca") }, Wit.recB] :
        Option (List CollectRec)).isSome = true ∧
    ([{ Wit.recA with content := some (some "ca") }, Wit.recB] :
        List CollectRec)[0]? = some { Wit.recA with content := some (some "ca") } ∧
    ([{ Wit.recA with content := some (some "ca") }, Wit.recB] :
        List CollectRec)[1]? = some Wit.recB := by
  refine ⟨by decide, by decide, by decide, ?_, ?_⟩
  · exact ((C10_add_contents_frame [Wit.recA, Wit.recB] [Wit.pairA, Wit.pairX]
      [{ Wit.recA with content := some (some "ca") }, Wit.recB] (by decide)
      (by decide)).2 0 (by decide) Wit.recA Wit.pairA (by decide) (by decide)).1 (by decide)
  · exact ((C10_add_contents_frame [Wit.recA, Wit.recB] [Wit.pairA, Wit.pairX]
      [{ Wit.recA with content := some (some "ca") }, Wit.recB] (by decide)
      (by decide)).2 1 (by decide) Wit.recB Wit.pairX (by decide) (by decide)).2 (by decide)

end CollectAll
